import Mathlib

/-!
Shallow embedding of the soothsayer-core adjudicator scripts: the on-chain
settler (settle and finalize commands), the on-chain market creator, the AAP
question-metadata parser, and the Brier scoring rule, together with theorems
checking the natural-language specification of the repository against them.

Conventions of the embedding:
* JSON files on disk are a `FileState`: present and parseable (`good`),
  absent (`missing`), or unparseable (`corrupt`).
* The blockchain boundary is explicit: a fresh on-chain read is an
  `Option ChainMarket` (`none` models a read that threw), and a transaction
  submission together with its confirmation is a `TxOutcome` parameter
  (`failed` covers a throw from either the submit or the wait call, which sit
  under one catch in the script).
* Dates that the scripts parse from ISO strings are carried as epoch seconds.
-/

/-- On-chain TruthMarket view, the fields read through the minimal ABI used by
the settler script: isSettled, isFinalized, adjudicator, question, deadline,
state, outcome. -/
structure ChainMarket where
  isSettled : Bool
  isFinalized : Bool
  adjudicator : String
  question : String
  deadline : Nat
  state : Nat
  outcome : Nat
deriving DecidableEq

/-- A commitment recorded on a local market (agent, YES or NO position,
integer confidence). -/
structure Commitment where
  agent : String
  position : String
  confidence : Nat
deriving DecidableEq

/-- A market record of the local markets.json store, restricted to the fields
the two scripts read or write. The deadline is the epoch value the creator
script obtains from the stored ISO string. -/
structure LocalMarket where
  id : String
  question : String
  moltbook_post_id : String
  rule_source : String
  commitments : List Commitment
  deadline : Nat
  status : String
  market_address : Option String
  settled_tx : Option String
  finalized_tx : Option String
deriving DecidableEq

/-- The markets.json document: an object keyed by market id, kept in insertion
order. -/
structure MarketsDb where
  markets : List (String × LocalMarket)
deriving DecidableEq

/-- State of a JSON file on disk: readable and parseable, absent, or present
but unparseable. -/
inductive FileState (α : Type) where
  | missing
  | corrupt
  | good (val : α)
deriving DecidableEq

/-- Result of submitting a transaction and awaiting its receipt; `failed`
covers a throw from either step (both sit inside one try block in the
scripts). -/
inductive TxOutcome where
  | failed
  | confirmed (hash : String)
deriving DecidableEq

/-- The OUTCOMES table of the settler script: index 0 is NO, 1 is YES, 2 is
INVALID. -/
def OUTCOMES : List String := ["NO", "YES", "INVALID"]

/-- The MARKET_STATES table of the settler script. -/
def MARKET_STATES : List String :=
  ["PENDING", "LIVE", "SETTLING", "SETTLED", "FINALIZED", "CANCELLED"]

/-- The record built by Settler.getMarketStatus from a successful on-chain
read (display-only fields such as deadlineDate are omitted). -/
structure MarketStatus where
  address : String
  isSettled : Bool
  isFinalized : Bool
  adjudicator : String
  question : String
  stateStr : String
  outcome : Option String
  isOurs : Bool
deriving DecidableEq

/-- JS String.toLowerCase on the ASCII addresses these scripts compare,
written over the character list so that it evaluates inside the kernel. -/
def jsToLower (s : String) : String := String.mk (s.toList.map Char.toLower)

/-- Association-list lookup with first-match semantics, the read of a JS
object field. -/
def dictGet {α : Type} : List (String × α) → String → Option α
  | [], _ => none
  | (k1, v) :: rest, k => if k1 = k then some v else dictGet rest k

/-- Association-list write with JS object semantics: replace the existing key
in place, otherwise append at the end (insertion order). -/
def dictSet {α : Type} : List (String × α) → String → α → List (String × α)
  | [], k, v => [(k, v)]
  | (k1, v1) :: rest, k, v =>
    if k1 = k then (k, v) :: rest else (k1, v1) :: dictSet rest k v

namespace Settler

/-- Settler.loadMarkets: parse markets.json, returning an empty document when
the file is missing or unparseable (the catch branch). -/
def loadMarkets : FileState MarketsDb → MarketsDb
  | .good d => d
  | _ => { markets := [] }

/-- Settler.saveMarkets: write the document back to disk. -/
def saveMarkets (d : MarketsDb) : FileState MarketsDb := .good d

/-- Settler.getMarketStatus on a successful read: mirrors the on-chain fields,
labels the state and the outcome through the two tables, and compares the
registered adjudicator with the wallet address case-insensitively. -/
def getMarketStatus (walletAddress : String) (addr : String) (c : ChainMarket) :
    MarketStatus :=
  { address := addr
    isSettled := c.isSettled
    isFinalized := c.isFinalized
    adjudicator := c.adjudicator
    question := c.question
    stateStr := (MARKET_STATES.get? c.state).getD "UNKNOWN"
    outcome := if c.isSettled then OUTCOMES.get? c.outcome else none
    isOurs := jsToLower c.adjudicator == jsToLower walletAddress }

/-- Report of one settle or finalize invocation. -/
inductive SettleReport where
  | readError
  | notOurs
  | alreadySettled (outcome : Option String)
  | notSettledYet
  | alreadyFinalized
  | txFailed
  | settled (hash : String)
  | finalized (hash : String)
deriving DecidableEq

/-- Observable result of one settle or finalize invocation: the outcome label
printed at entry, whether the contract call was reached, the state of the
markets file afterwards, and the report. -/
structure SettleRun where
  announcedOutcome : Option String
  txSubmitted : Bool
  file : FileState MarketsDb
  report : SettleReport
deriving DecidableEq

/-- The local write performed by Settler.settle after a confirmed
transaction, applied to every market whose market_address matches. -/
def settleUpdate (addr hash : String) (m : LocalMarket) : LocalMarket :=
  if m.market_address = some addr then
    { m with status := "settling", settled_tx := some hash }
  else m

/-- The local write performed by Settler.finalize after a confirmed
transaction. -/
def finalizeUpdate (addr hash : String) (m : LocalMarket) : LocalMarket :=
  if m.market_address = some addr then
    { m with status := "finalized", finalized_tx := some hash }
  else m

/-- Settler.settle: print the outcome label, make a fresh on-chain read, abort
on read error, on an adjudicator mismatch, or when the market is already
settled; otherwise submit the settle transaction, and only after confirmation
load, update and save the local markets file. A failed transaction is caught
and nothing local is written. -/
def settle (walletAddress : String) (read : Option ChainMarket)
    (outcomeInt : Nat) (file : FileState MarketsDb) (addr : String)
    (txo : TxOutcome) : SettleRun :=
  let lbl := OUTCOMES.get? outcomeInt
  match read with
  | none => { announcedOutcome := lbl, txSubmitted := false, file := file,
              report := .readError }
  | some c =>
    let st := getMarketStatus walletAddress addr c
    if !st.isOurs then
      { announcedOutcome := lbl, txSubmitted := false, file := file,
        report := .notOurs }
    else if st.isSettled then
      { announcedOutcome := lbl, txSubmitted := false, file := file,
        report := .alreadySettled st.outcome }
    else
      match txo with
      | .failed =>
        { announcedOutcome := lbl, txSubmitted := true, file := file,
          report := .txFailed }
      | .confirmed h =>
        let db := loadMarkets file
        { announcedOutcome := lbl, txSubmitted := true,
          file := saveMarkets
            { markets := db.markets.map (fun p => (p.1, settleUpdate addr h p.2)) },
          report := .settled h }

/-- Settler.finalize: fresh on-chain read, abort on read error, when the
market is not settled yet, or when it is already finalized; otherwise submit
the finalize transaction and only after confirmation update the local file. -/
def finalize (walletAddress : String) (read : Option ChainMarket)
    (file : FileState MarketsDb) (addr : String) (txo : TxOutcome) : SettleRun :=
  match read with
  | none => { announcedOutcome := none, txSubmitted := false, file := file,
              report := .readError }
  | some c =>
    let st := getMarketStatus walletAddress addr c
    if !st.isSettled then
      { announcedOutcome := none, txSubmitted := false, file := file,
        report := .notSettledYet }
    else if st.isFinalized then
      { announcedOutcome := none, txSubmitted := false, file := file,
        report := .alreadyFinalized }
    else
      match txo with
      | .failed =>
        { announcedOutcome := none, txSubmitted := true, file := file,
          report := .txFailed }
      | .confirmed h =>
        let db := loadMarkets file
        { announcedOutcome := none, txSubmitted := true,
          file := saveMarkets
            { markets := db.markets.map (fun p => (p.1, finalizeUpdate addr h p.2)) },
          report := .finalized h }

/-- Modelled from the spec (chain boundary, external collaborator): a
confirmed settle transaction moves the on-chain market to the settled state
with the submitted outcome. -/
def chainAfterSettle (c : ChainMarket) (o : Nat) : ChainMarket :=
  { c with isSettled := true, state := 3, outcome := o }

/-- Modelled from the spec (chain boundary, external collaborator): a
confirmed finalize transaction marks the on-chain market finalized. -/
def chainAfterFinalize (c : ChainMarket) : ChainMarket :=
  { c with isFinalized := true, state := 4 }

end Settler

namespace MarketCreator

/-- One entry of market-mappings.json as written by the creator script
(the wall-clock created_at timestamp is omitted from the model). -/
structure Mapping where
  moltbook_id : String
  moltbook_post_id : String
  chain : String
  chain_id : Nat
  market_address : String
  question : String
  status : String
deriving DecidableEq

/-- The market-mappings.json document. -/
structure MappingsDb where
  mappings : List (String × Mapping)
  onchain_only : List (String × String)
deriving DecidableEq

/-- MarketCreator.loadMarkets: same catch-to-empty read as the settler. -/
def loadMarkets : FileState MarketsDb → MarketsDb
  | .good d => d
  | _ => { markets := [] }

/-- MarketCreator.loadMappings: parse market-mappings.json, returning the
empty document when the file is missing or unparseable. -/
def loadMappings : FileState MappingsDb → MappingsDb
  | .good d => d
  | _ => { mappings := [], onchain_only := [] }

/-- MarketCreator.saveMappings. -/
def saveMappings (d : MappingsDb) : FileState MappingsDb := .good d

/-- The fixed initial liquidity of the creator script: 1000 in WAD units. -/
def liquidityWad : Nat := 1000 * 10 ^ 18

/-- The estimated deposit in WAD: liquidity times 693 over 1000 (BigInt floor
division). -/
def estimatedDeposit : Nat := liquidityWad * 693 / 1000

/-- The estimated deposit converted from WAD to 6-decimal USDC units. -/
def depositUsdc : Nat := estimatedDeposit / 10 ^ 12

/-- Result of the createMarket transaction: a throw from submit or wait, a
confirmed receipt without a MarketCreated event in its logs, or a confirmed
receipt carrying the created market address. -/
inductive CreateTx where
  | failed
  | confirmedNoEvent (hash : String)
  | confirmedEvent (hash : String) (marketAddress : String)
deriving DecidableEq

/-- Report of one create invocation. -/
inductive CreateReport where
  | notFound
  | alreadySynced (addr : String)
  | deadlinePassed
  | insufficientBalance
  | approveFailed
  | createFailed
  | noEvent
  | created (addr : String)
deriving DecidableEq

/-- Observable result of one create invocation: whether the approve call and
the createMarket call were reached, the state of the mappings file afterwards,
and the report. -/
structure CreateRun where
  approveSubmitted : Bool
  createSubmitted : Bool
  mappingsFile : FileState MappingsDb
  report : CreateReport
deriving DecidableEq

/-- The mapping entry recorded after a successful creation (created_at
omitted as a wall-clock value). -/
def newMapping (marketId : String) (market : LocalMarket) (maddr : String) :
    Mapping :=
  { moltbook_id := marketId
    moltbook_post_id := market.moltbook_post_id
    chain := "monad-testnet"
    chain_id := 10143
    market_address := maddr
    question := "@SoothSayer " ++ market.question
    status := "live" }

/-- MarketCreator.create: load the markets file, abort when the market id is
unknown; load the mappings file and abort when a mapping for the id already
exists (the pre-submission idempotence check); abort when the deadline has
passed or the USDC balance does not cover the estimated deposit; then approve
and submit createMarket, and only when the receipt carries the MarketCreated
event record the mapping and save the mappings file. -/
def create (mFile : FileState MarketsDb) (pFile : FileState MappingsDb)
    (marketId : String) (now : Nat) (balanceUsdc : Nat)
    (approveTx : TxOutcome) (createTx : CreateTx) : CreateRun :=
  match dictGet (loadMarkets mFile).markets marketId with
  | none => { approveSubmitted := false, createSubmitted := false,
              mappingsFile := pFile, report := .notFound }
  | some market =>
    match dictGet (loadMappings pFile).mappings marketId with
    | some mp =>
      { approveSubmitted := false, createSubmitted := false,
        mappingsFile := pFile, report := .alreadySynced mp.market_address }
    | none =>
      if market.deadline ≤ now then
        { approveSubmitted := false, createSubmitted := false,
          mappingsFile := pFile, report := .deadlinePassed }
      else if balanceUsdc < depositUsdc then
        { approveSubmitted := false, createSubmitted := false,
          mappingsFile := pFile, report := .insufficientBalance }
      else
        match approveTx with
        | .failed =>
          { approveSubmitted := true, createSubmitted := false,
            mappingsFile := pFile, report := .approveFailed }
        | .confirmed _ =>
          match createTx with
          | .failed =>
            { approveSubmitted := true, createSubmitted := true,
              mappingsFile := pFile, report := .createFailed }
          | .confirmedNoEvent _ =>
            { approveSubmitted := true, createSubmitted := true,
              mappingsFile := pFile, report := .noEvent }
          | .confirmedEvent _ maddr =>
            { approveSubmitted := true, createSubmitted := true,
              mappingsFile :=
                saveMappings
                  { loadMappings pFile with
                    mappings := dictSet (loadMappings pFile).mappings marketId
                      (newMapping marketId market maddr) },
              report := .created maddr }

end MarketCreator

/-- Definition following the words of the spec (graduation eligibility), for
comparison with MarketCreator.create: commitment count at least 5, at least 3
distinct committing agents, at least 7 days from evaluation time to the
deadline, and a resolution source other than manual. -/
def eligibleB (m : LocalMarket) (now : Nat) : Bool :=
  decide (5 ≤ m.commitments.length) &&
  decide (3 ≤ ((m.commitments.map (fun c => c.agent)).dedup.length)) &&
  decide (now + 7 * 86400 ≤ m.deadline) &&
  decide (m.rule_source ≠ "manual")

/-- A binary market position. -/
inductive Position where
  | yes
  | no
deriving DecidableEq

/-- Modelled from the spec: the Brier scoring rule of the protocol commit
format document (the scoring implementation script itself is not under src).
With p the confidence over 100 and o equal to 1 exactly when the commitment
position matches the winning outcome, the score is 1 - (p - o) squared. -/
def brierScore (confidence : Nat) (position winner : Position) : ℚ :=
  let p : ℚ := (confidence : ℚ) / 100
  let o : ℚ := if position = winner then 1 else 0
  1 - (p - o) ^ 2

namespace AAP

/-- A value stored under a key of a structured tag: a plain string from a
key:value line, or the pairs dictionary of a sub-tag. -/
inductive Entry where
  | s (v : String)
  | m (pairs : List (String × String))
deriving DecidableEq

/-- The value of one top-level tag in the parse result: a scalar line or a
structured mapping. -/
inductive TagVal where
  | scalar (v : String)
  | obj (entries : List (String × Entry))
deriving DecidableEq

/-- A Python runtime error raised during parsing (item assignment into a
string value). -/
inductive PyErr where
  | typeError
deriving DecidableEq

/-- Python whitespace as relevant to split and strip on these inputs. -/
def isPyWs (c : Char) : Bool :=
  c == ' ' || c == '\t' || c == '\n' || c == '\r'

/-- Python str.strip with the default whitespace set, written over the
character list so that it evaluates inside the kernel. -/
def pyStrip (s : String) : String :=
  String.mk (((s.toList.dropWhile isPyWs).reverse.dropWhile isPyWs).reverse)

/-- Python str.startswith, written over the character list so that it
evaluates inside the kernel. -/
def beginsWith (pre s : String) : Bool :=
  s.toList.take pre.toList.length == pre.toList

/-- Helper of splitLinesPy: cut a character list at newline characters. -/
def splitLinesGo : List Char → List Char → List String
  | acc, [] => [String.mk acc.reverse]
  | acc, '\n' :: rest => String.mk acc.reverse :: splitLinesGo [] rest
  | acc, c :: rest => splitLinesGo (c :: acc) rest

/-- Python splitlines on newline-separated text: the empty string yields no
lines, and no trailing empty line exists because the input is stripped
first. -/
def splitLinesPy (s : String) : List String :=
  if s.toList.isEmpty then [] else splitLinesGo [] s.toList

/-- Python split with separator None and maxsplit 1: drop leading whitespace,
take the first whitespace-free token, and return the remainder after the
following whitespace run when it is nonempty. -/
def pySplitWS1 (s : String) : List String :=
  let cs := s.toList.dropWhile isPyWs
  if cs.isEmpty then []
  else
    let tok := cs.takeWhile (fun c => !(isPyWs c))
    let rest := (cs.dropWhile (fun c => !(isPyWs c))).dropWhile isPyWs
    if rest.isEmpty then [String.mk tok] else [String.mk tok, String.mk rest]

/-- Helper of pySplitWS: accumulate maximal whitespace-free tokens. -/
def pyTokensGo : List Char → List Char → List String
  | acc, [] => if acc.isEmpty then [] else [String.mk acc.reverse]
  | acc, c :: rest =>
    if isPyWs c then
      if acc.isEmpty then pyTokensGo [] rest
      else String.mk acc.reverse :: pyTokensGo [] rest
    else pyTokensGo (c :: acc) rest

/-- Python split with separator None: whitespace-separated tokens, no
empties. -/
def pySplitWS (s : String) : List String := pyTokensGo [] s.toList

/-- Python split on a colon with maxsplit 1, on a string known to contain a
colon. -/
def splitColon1 (s : String) : String × String :=
  let cs := s.toList
  (String.mk (cs.takeWhile (fun c => !(c == ':'))),
   String.mk ((cs.dropWhile (fun c => !(c == ':'))).drop 1))

/-- Python membership test for a colon in a string. -/
def containsColon (s : String) : Bool := s.toList.any (fun c => c == ':')

/-- Python dict.setdefault with a fresh empty mapping as default: keep the
dictionary unchanged when the key exists, otherwise append the default. -/
def setdefaultTag (d : List (String × TagVal)) (k : String) (v : TagVal) :
    List (String × TagVal) :=
  match dictGet d k with
  | some _ => d
  | none => d ++ [(k, v)]

/-- The inline pairs of a sub-tag line: every whitespace token containing a
colon contributes a key and value, split at the first colon, unstripped. -/
def subtagPairs (tokens : List String) : List (String × String) :=
  tokens.foldl
    (fun ps tok =>
      if containsColon tok then
        let kv := splitColon1 tok
        dictSet ps kv.1 kv.2
      else ps)
    []

/-- The pairs loop of the save-tag helper: each content line with a colon is
split at the first colon into a stripped key and value; a line without a
colon is collected under the reserved text key. -/
def ruleLinesPairs (content : List String) : List (String × Entry) :=
  content.foldl
    (fun ps line =>
      if containsColon line then
        let kv := splitColon1 line
        dictSet ps (pyStrip kv.1) (Entry.s (pyStrip kv.2))
      else dictSet ps "_text" (Entry.s line))
    []

/-- The save-tag helper: exactly one content line without a colon is stored
verbatim as a scalar; otherwise the key:value pairs of the content lines are
stored as a mapping (the fallback to the first content line is unreachable
because callers pass nonempty content). -/
def saveTagPy (result : List (String × TagVal)) (tag : String)
    (content : List String) : List (String × TagVal) :=
  match content with
  | [c] =>
    if containsColon c then dictSet result tag (TagVal.obj (ruleLinesPairs [c]))
    else dictSet result tag (TagVal.scalar c)
  | _ =>
    let ps := ruleLinesPairs content
    dictSet result tag
      (if ps.isEmpty then TagVal.scalar (content.headD "") else TagVal.obj ps)

/-- Mutable loop state of parse_question: the accumulated result, the open
top-level tag (none before the first marker line, and Python treats the empty
tag name as falsy), and the content lines collected so far. -/
structure PState where
  result : List (String × TagVal)
  ctag : Option String
  content : List String

/-- Python truthiness of the current tag: set and nonempty. -/
def truthyTag : Option String → Bool
  | none => false
  | some s => !(s == "")

/-- The save step guarded by Python truthiness of both the current tag and
the accumulated content. -/
def flushTag (st : PState) : List (String × TagVal) :=
  match st.ctag with
  | some t =>
    if t == "" || st.content.isEmpty then st.result
    else saveTagPy st.result t st.content
  | none => st.result

/-- One loop iteration of parse_question over a single line. A sub-tag line
builds its inline pairs and writes them under a double-underscore key inside
the value of the currently open tag after a setdefault; when that value is a
previously saved scalar the item assignment raises a TypeError. A top-level
marker line saves the open tag and starts a new block. Any other line
accumulates as content. -/
def stepLine (st : PState) (line : String) : Except PyErr PState :=
  if beginsWith "§§" line then
    match pySplitWS1 line with
    | p0 :: p1 :: _ =>
      let subtag := String.mk (p0.toList.drop 2)
      let pairs := subtagPairs (pySplitWS p1)
      match st.ctag with
      | some t =>
        if t == "" then .ok st
        else
          let r1 := setdefaultTag st.result t (TagVal.obj [])
          match dictGet r1 t with
          | some (TagVal.scalar _) => .error PyErr.typeError
          | some (TagVal.obj es) =>
            .ok { st with
                  result :=
                    dictSet r1 t
                      (TagVal.obj (dictSet es ("__" ++ subtag) (Entry.m pairs))) }
          | none => .ok { st with result := r1 }
      | none => .ok st
    | _ => .ok st
  else if beginsWith "§" line then
    let result1 := flushTag st
    let parts := pySplitWS1 line
    let ctag1 := String.mk ((parts.headD "").toList.drop 1)
    let content1 :=
      match parts with
      | _ :: p1 :: _ => [p1]
      | _ => []
    .ok { result := result1, ctag := some ctag1, content := content1 }
  else
    .ok { st with content := st.content ++ [line] }

/-- The line loop of parse_question, with the final save of the last open
tag. -/
def runLines : PState → List String → Except PyErr (List (String × TagVal))
  | st, [] => .ok (flushTag st)
  | st, l :: ls =>
    match stepLine st l with
    | .error e => .error e
    | .ok st1 => runLines st1 ls

/-- parse_question from the AAP specification: strip the raw text, split it
into lines, and run the tag accumulation loop. -/
def parse_question (raw : String) : Except PyErr (List (String × TagVal)) :=
  runLines { result := [], ctag := none, content := [] }
    (splitLinesPy (pyStrip raw))

/-- A string that parses as a number: an optional sign, digits and at most
one dot, with at least one digit. -/
def isNumberStr (s : String) : Bool :=
  let cs := s.toList
  let cs1 := if cs.headD ' ' == '-' || cs.headD ' ' == '+' then cs.drop 1 else cs
  !cs1.isEmpty && cs1.all (fun c => c.isDigit || c == '.') &&
    decide ((cs1.filter (fun c => c == '.')).length ≤ 1) &&
    cs1.any (fun c => c.isDigit)

/-- Modelled from the spec: the required-fields validation of a parsed
question (the enforcing schema-validation code, the market adapter script, is
not under src). It fails naming the missing field when the question tag is
absent, when the rule tag is absent or carries no source, and, for a source
other than the literal manual, when metric or op is absent or target is
absent or not numeric; it accepts everything else. -/
def validateParsed (r : List (String × TagVal)) : Except String Unit :=
  match dictGet r "question" with
  | none => .error "question"
  | some _ =>
    match dictGet r "rule" with
    | none => .error "rule"
    | some (TagVal.scalar _) => .error "rule.source"
    | some (TagVal.obj es) =>
      match dictGet es "source" with
      | some (Entry.s src) =>
        if src = "manual" then .ok ()
        else
          match dictGet es "metric" with
          | some (Entry.s _) =>
            match dictGet es "op" with
            | some (Entry.s _) =>
              match dictGet es "target" with
              | some (Entry.s t) =>
                if isNumberStr t then .ok () else .error "rule.target"
              | _ => .error "rule.target"
            | _ => .error "rule.op"
          | _ => .error "rule.metric"
      | _ => .error "rule.source"

end AAP

/-- A concrete on-chain market used to instantiate hypotheses: settled and
finalized, with matching adjudicator up to case. -/
def c1Chain : ChainMarket :=
  { isSettled := true, isFinalized := true, adjudicator := "0xAB",
    question := "q", deadline := 100, state := 4, outcome := 1 }

/-- C1: if the fresh on-chain read reports the market already settled, settle
submits no transaction and leaves the markets file unchanged; if it reports
already finalized, finalize submits no transaction and leaves the file
unchanged; and a second settle run after a confirmed settle (respectively a
second finalize run after a confirmed finalize), with no intervening on-chain
change, submits no transaction and leaves the local state exactly as the
first run left it. -/
theorem c1_settlement_sync_idempotent
    (w : String) (c : ChainMarket) (o o2 : Nat) (f : FileState MarketsDb)
    (a h : String) (t t2 : TxOutcome) :
    (c.isSettled = true →
      (Settler.settle w (some c) o f a t).txSubmitted = false ∧
      (Settler.settle w (some c) o f a t).file = f) ∧
    (c.isFinalized = true →
      (Settler.finalize w (some c) f a t).txSubmitted = false ∧
      (Settler.finalize w (some c) f a t).file = f) ∧
    ((Settler.settle w (some (Settler.chainAfterSettle c o)) o2
        ((Settler.settle w (some c) o f a (.confirmed h)).file) a t2).txSubmitted
        = false ∧
      (Settler.settle w (some (Settler.chainAfterSettle c o)) o2
        ((Settler.settle w (some c) o f a (.confirmed h)).file) a t2).file =
        (Settler.settle w (some c) o f a (.confirmed h)).file) ∧
    ((Settler.finalize w (some (Settler.chainAfterFinalize c))
        ((Settler.finalize w (some c) f a (.confirmed h)).file) a t2).txSubmitted
        = false ∧
      (Settler.finalize w (some (Settler.chainAfterFinalize c))
        ((Settler.finalize w (some c) f a (.confirmed h)).file) a t2).file =
        (Settler.finalize w (some c) f a (.confirmed h)).file) := by
  have hs2 : ∀ (c2 : ChainMarket) (f2 : FileState MarketsDb) (o3 : Nat)
      (t3 : TxOutcome), c2.isSettled = true →
      (Settler.settle w (some c2) o3 f2 a t3).txSubmitted = false ∧
      (Settler.settle w (some c2) o3 f2 a t3).file = f2 := by
    intro c2 f2 o3 t3 hset
    cases ho : (jsToLower c2.adjudicator == jsToLower w) <;>
      simp [Settler.settle, Settler.getMarketStatus, ho, hset]
  have hf2 : ∀ (c2 : ChainMarket) (f2 : FileState MarketsDb) (t3 : TxOutcome),
      c2.isFinalized = true →
      (Settler.finalize w (some c2) f2 a t3).txSubmitted = false ∧
      (Settler.finalize w (some c2) f2 a t3).file = f2 := by
    intro c2 f2 t3 hfin
    cases hset : c2.isSettled <;>
      simp [Settler.finalize, Settler.getMarketStatus, hset, hfin]
  refine ⟨fun hset => hs2 c f o t hset, fun hfin => hf2 c f t hfin, ?_, ?_⟩
  · exact hs2 (Settler.chainAfterSettle c o) _ o2 t2 rfl
  · exact hf2 (Settler.chainAfterFinalize c) _ t2 rfl

/-- Witness for C1 at a concrete settled and finalized market. -/
theorem c1_witness :
    (c1Chain.isSettled = true ∧
      (Settler.settle "0xab" (some c1Chain) 1 .missing "0xM" .failed).txSubmitted
        = false ∧
      (Settler.settle "0xab" (some c1Chain) 1 .missing "0xM" .failed).file =
        .missing) ∧
    (c1Chain.isFinalized = true ∧
      (Settler.finalize "0xab" (some c1Chain) .missing "0xM" .failed).txSubmitted
        = false ∧
      (Settler.finalize "0xab" (some c1Chain) .missing "0xM" .failed).file =
        .missing) :=
  ⟨⟨rfl, (c1_settlement_sync_idempotent "0xab" c1Chain 1 1 .missing "0xM" "h"
      .failed .failed).1 rfl⟩,
   ⟨rfl, (c1_settlement_sync_idempotent "0xab" c1Chain 1 1 .missing "0xM" "h"
      .failed .failed).2.1 rfl⟩⟩

/-- An on-chain market that is live and not settled, with adjudicator equal to
the wallet used below. -/
def c2Chain : ChainMarket :=
  { isSettled := false, isFinalized := false, adjudicator := "0xw",
    question := "Q", deadline := 200, state := 1, outcome := 0 }

/-- The same market after on-chain settlement. -/
def c2ChainSettled : ChainMarket :=
  { isSettled := true, isFinalized := false, adjudicator := "0xw",
    question := "Q", deadline := 200, state := 3, outcome := 1 }

/-- A local market record already in the terminal finalized status. -/
def c2MarketFinalized : LocalMarket :=
  { id := "mkt1", question := "Q", moltbook_post_id := "p",
    rule_source := "coingecko:bitcoin", commitments := [], deadline := 200,
    status := "finalized", market_address := some "0xM", settled_tx := none,
    finalized_tx := none }

/-- A local market record still in the initial open status. -/
def c2MarketOpen : LocalMarket :=
  { c2MarketFinalized with status := "open" }

/-- What the settle command writes over the finalized record: status settling
and the settle transaction hash. -/
def c2WrittenBySettle : LocalMarket :=
  { c2MarketFinalized with status := "settling", settled_tx := some "0xTX" }

/-- What the finalize command writes over the open record: status finalized
and the finalize transaction hash. -/
def c2WrittenByFinalize : LocalMarket :=
  { c2MarketOpen with status := "finalized", finalized_tx := some "0xTX" }

/-- C2 (failing-input evaluation): the local status writes of the settler are
not guarded by any transition check. From local status finalized, a confirmed
settle writes status settling (a backward move into a status outside the
documented open, resolved, settled, finalized, invalid set), and from local
status open, a confirmed finalize writes status finalized directly (skipping
resolved and settled); neither write is rejected. -/
theorem c2_unchecked_status_writes :
    ((Settler.settle "0xw" (some c2Chain) 1
        (.good { markets := [("mkt1", c2MarketFinalized)] }) "0xM"
        (.confirmed "0xTX")).file =
      .good { markets := [("mkt1", c2WrittenBySettle)] }) ∧
    ((Settler.finalize "0xw" (some c2ChainSettled)
        (.good { markets := [("mkt1", c2MarketOpen)] }) "0xM"
        (.confirmed "0xTX")).file =
      .good { markets := [("mkt1", c2WrittenByFinalize)] }) := by
  exact ⟨rfl, rfl⟩

/-- C4: the outcome table maps 0 to NO, 1 to YES and 2 to INVALID; the
on-chain read labels a settled outcome through exactly this table and labels
nothing when unsettled; and the settle command announces the outcome it will
write through the same table. -/
theorem c4_outcome_encoding :
    OUTCOMES.get? 0 = some "NO" ∧ OUTCOMES.get? 1 = some "YES" ∧
    OUTCOMES.get? 2 = some "INVALID" ∧
    (∀ (w a : String) (c : ChainMarket), c.isSettled = true →
      (Settler.getMarketStatus w a c).outcome = OUTCOMES.get? c.outcome) ∧
    (∀ (w a : String) (c : ChainMarket), c.isSettled = false →
      (Settler.getMarketStatus w a c).outcome = none) ∧
    (∀ (w : String) (r : Option ChainMarket) (o : Nat)
        (f : FileState MarketsDb) (a : String) (t : TxOutcome),
      (Settler.settle w r o f a t).announcedOutcome = OUTCOMES.get? o) := by
  refine ⟨rfl, rfl, rfl, ?_, ?_, ?_⟩
  · intro w a c hset
    simp [Settler.getMarketStatus, hset]
  · intro w a c hset
    simp [Settler.getMarketStatus, hset]
  · intro w r o f a t
    cases r with
    | none => rfl
    | some c =>
      cases ho : (jsToLower c.adjudicator == jsToLower w) <;>
        cases hset : c.isSettled <;> cases t <;>
          simp [Settler.settle, Settler.getMarketStatus, ho, hset]

/-- Witness for C4 at a concrete settled and a concrete unsettled market. -/
theorem c4_witness :
    (c1Chain.isSettled = true ∧
      (Settler.getMarketStatus "0xab" "0xM" c1Chain).outcome =
        OUTCOMES.get? c1Chain.outcome) ∧
    (c2Chain.isSettled = false ∧
      (Settler.getMarketStatus "0xw" "0xM" c2Chain).outcome = none) :=
  ⟨⟨rfl, c4_outcome_encoding.2.2.2.1 "0xab" "0xM" c1Chain rfl⟩,
   ⟨rfl, c4_outcome_encoding.2.2.2.2.1 "0xw" "0xM" c2Chain rfl⟩⟩

/-- C5: when the settle or finalize transaction submission or confirmation
fails, the markets file is left exactly as it was, in every branch; and in
the branch that actually reaches the transaction (matching adjudicator and
not yet settled, respectively settled and not yet finalized) the failure is
reported as a transaction failure rather than being absorbed into a terminal
local state. -/
theorem c5_tx_failure_leaves_state (w : String) (r : Option ChainMarket)
    (c : ChainMarket) (o : Nat) (f : FileState MarketsDb) (a : String) :
    ((Settler.settle w r o f a .failed).file = f) ∧
    ((Settler.finalize w r f a .failed).file = f) ∧
    (jsToLower c.adjudicator = jsToLower w → c.isSettled = false →
      (Settler.settle w (some c) o f a .failed).txSubmitted = true ∧
      (Settler.settle w (some c) o f a .failed).report = .txFailed) ∧
    (c.isSettled = true → c.isFinalized = false →
      (Settler.finalize w (some c) f a .failed).txSubmitted = true ∧
      (Settler.finalize w (some c) f a .failed).report = .txFailed) := by
  refine ⟨?_, ?_, ?_, ?_⟩
  · cases r with
    | none => rfl
    | some c2 =>
      cases ho : (jsToLower c2.adjudicator == jsToLower w) <;>
        cases hset : c2.isSettled <;>
          simp [Settler.settle, Settler.getMarketStatus, ho, hset]
  · cases r with
    | none => rfl
    | some c2 =>
      cases hset : c2.isSettled <;> cases hfin : c2.isFinalized <;>
        simp [Settler.finalize, Settler.getMarketStatus, hset, hfin]
  · intro heq hset
    have ho : (jsToLower c.adjudicator == jsToLower w) = true := by simp [heq]
    simp [Settler.settle, Settler.getMarketStatus, ho, hset]
  · intro hset hfin
    simp [Settler.finalize, Settler.getMarketStatus, hset, hfin]

/-- Witness for C5 at a concrete market where both guarded branches are
reached. -/
theorem c5_witness :
    ((Settler.settle "0xw" (some c2Chain) 1 .missing "0xM" .failed).file =
      .missing) ∧
    (jsToLower c2Chain.adjudicator = jsToLower "0xw" ∧ c2Chain.isSettled = false ∧
      (Settler.settle "0xw" (some c2Chain) 1 .missing "0xM" .failed).report =
        .txFailed) ∧
    (c2ChainSettled.isSettled = true ∧ c2ChainSettled.isFinalized = false ∧
      (Settler.finalize "0xw" (some c2ChainSettled) .missing "0xM"
        .failed).report = .txFailed) :=
  ⟨(c5_tx_failure_leaves_state "0xw" (some c2Chain) c2Chain 1 .missing "0xM").1,
   ⟨rfl, rfl,
    ((c5_tx_failure_leaves_state "0xw" (some c2Chain) c2Chain 1 .missing
      "0xM").2.2.1 rfl rfl).2⟩,
   ⟨rfl, rfl,
    ((c5_tx_failure_leaves_state "0xw" (some c2ChainSettled) c2ChainSettled 1
      .missing "0xM").2.2.2 rfl rfl).2⟩⟩

/-- C7: when the configured wallet does not match the on-chain registered
adjudicator (case-insensitively), settle aborts before any transaction: no
settle call is reached, the markets file is untouched, and the run reports
the authorization failure. -/
theorem c7_adjudicator_mismatch_aborts (w : String) (c : ChainMarket) (o : Nat)
    (f : FileState MarketsDb) (a : String) (t : TxOutcome)
    (hne : jsToLower c.adjudicator ≠ jsToLower w) :
    (Settler.settle w (some c) o f a t).txSubmitted = false ∧
    (Settler.settle w (some c) o f a t).file = f ∧
    (Settler.settle w (some c) o f a t).report = .notOurs := by
  have ho : (jsToLower c.adjudicator == jsToLower w) = false := by
    simp [hne]
  simp [Settler.settle, Settler.getMarketStatus, ho]

/-- A concrete on-chain market whose adjudicator is a different address. -/
def c7Chain : ChainMarket :=
  { c2Chain with adjudicator := "0xAAAA" }

/-- Witness for C7 at a concrete adjudicator mismatch. -/
theorem c7_witness :
    jsToLower c7Chain.adjudicator ≠ jsToLower "0xBBBB" ∧
    (Settler.settle "0xBBBB" (some c7Chain) 1 .missing "0xM"
      (.confirmed "0xTX")).txSubmitted = false ∧
    (Settler.settle "0xBBBB" (some c7Chain) 1 .missing "0xM"
      (.confirmed "0xTX")).file = .missing ∧
    (Settler.settle "0xBBBB" (some c7Chain) 1 .missing "0xM"
      (.confirmed "0xTX")).report = .notOurs :=
  ⟨by decide,
   c7_adjudicator_mismatch_aborts "0xBBBB" c7Chain 1 .missing "0xM"
     (.confirmed "0xTX") (by decide)⟩

/-- A local market that fails every graduation criterion except existence: no
commitments, one day to the deadline, manual resolution source. -/
def c3Market : LocalMarket :=
  { id := "m1", question := "Will it happen?", moltbook_post_id := "post1",
    rule_source := "manual", commitments := [], deadline := 186400,
    status := "open", market_address := none, settled_tx := none,
    finalized_tx := none }

/-- A creation run on that market with an empty mappings file, a funded
wallet, and confirmed transactions. -/
def c3Run : MarketCreator.CreateRun :=
  MarketCreator.create (.good { markets := [("m1", c3Market)] })
    (.good { mappings := [], onchain_only := [] }) "m1" 100000
    (1000 * 10 ^ 6) (.confirmed "0xA") (.confirmedEvent "0xH" "0xMKT")

/-- C3 (counterexample): the creation script submits the createMarket
transaction for a market that is not eligible under the graduation criteria
of the spec (it has zero commitments, zero distinct agents, one day to the
deadline, and a manual source). -/
theorem c3_create_submits_ineligible :
    c3Run.createSubmitted = true ∧ eligibleB c3Market 100000 = false := by
  exact ⟨rfl, rfl⟩

/-- C3 (amended): the conditions the creation script does check before
submitting: the market exists in the local store, no chain mapping for its id
exists yet, the deadline is strictly in the future, and the wallet balance
covers the estimated deposit. Graduation eligibility is not among them. -/
theorem c3_create_guard_amended (mFile : FileState MarketsDb)
    (pFile : FileState MarketCreator.MappingsDb) (id1 : String) (now bal : Nat)
    (atx : TxOutcome) (ctx : MarketCreator.CreateTx)
    (hsub : (MarketCreator.create mFile pFile id1 now bal atx
      ctx).createSubmitted = true) :
    ∃ m, dictGet (MarketCreator.loadMarkets mFile).markets id1 = some m ∧
      dictGet (MarketCreator.loadMappings pFile).mappings id1 = none ∧
      now < m.deadline ∧ MarketCreator.depositUsdc ≤ bal := by
  revert hsub
  unfold MarketCreator.create
  cases hm : dictGet (MarketCreator.loadMarkets mFile).markets id1 with
  | none => intro hsub; simp at hsub
  | some m =>
    cases hp : dictGet (MarketCreator.loadMappings pFile).mappings id1 with
    | some mp => intro hsub; simp at hsub
    | none =>
      by_cases hd : m.deadline ≤ now
      · intro hsub; simp [hd] at hsub
      · by_cases hb : bal < MarketCreator.depositUsdc
        · intro hsub; simp [hd, hb] at hsub
        · cases atx with
          | failed => intro hsub; simp [hd, hb] at hsub
          | confirmed h =>
            intro _
            exact ⟨m, rfl, rfl, by omega, by omega⟩

/-- Witness for the amended C3 at the concrete submitting run. -/
theorem c3_guard_witness :
    c3Run.createSubmitted = true ∧
    (∃ m, dictGet (MarketCreator.loadMarkets
        (.good { markets := [("m1", c3Market)] })).markets "m1" = some m ∧
      dictGet (MarketCreator.loadMappings
        (.good { mappings := [], onchain_only := [] })).mappings "m1" = none ∧
      100000 < m.deadline ∧ MarketCreator.depositUsdc ≤ 1000 * 10 ^ 6) :=
  ⟨rfl,
   c3_create_guard_amended (.good { markets := [("m1", c3Market)] })
     (.good { mappings := [], onchain_only := [] }) "m1" 100000
     (1000 * 10 ^ 6) (.confirmed "0xA") (.confirmedEvent "0xH" "0xMKT") rfl⟩

/-- C6: when a chain mapping for the market id already exists at invocation
time, create submits neither the approval nor the creation transaction and
the mappings file is left unchanged (the check runs before any submission). -/
theorem c6_no_double_creation (mFile : FileState MarketsDb)
    (pFile : FileState MarketCreator.MappingsDb) (id1 : String) (now bal : Nat)
    (atx : TxOutcome) (ctx : MarketCreator.CreateTx)
    (hm : (dictGet (MarketCreator.loadMappings pFile).mappings id1).isSome
      = true) :
    (MarketCreator.create mFile pFile id1 now bal atx ctx).approveSubmitted
      = false ∧
    (MarketCreator.create mFile pFile id1 now bal atx ctx).createSubmitted
      = false ∧
    (MarketCreator.create mFile pFile id1 now bal atx ctx).mappingsFile
      = pFile := by
  obtain ⟨mp, hp⟩ := Option.isSome_iff_exists.mp hm
  unfold MarketCreator.create
  cases hmk : dictGet (MarketCreator.loadMarkets mFile).markets id1 with
  | none => exact ⟨rfl, rfl, rfl⟩
  | some m => simp [hp]

/-- A mappings file that already holds a mapping for the market id. -/
def c6Mappings : MarketCreator.MappingsDb :=
  { mappings := [("m1",
      { moltbook_id := "m1", moltbook_post_id := "post1",
        chain := "monad-testnet", chain_id := 10143,
        market_address := "0xOLD", question := "q", status := "live" })],
    onchain_only := [] }

/-- Witness for C6 at a concrete pre-existing mapping. -/
theorem c6_witness :
    (dictGet (MarketCreator.loadMappings (.good c6Mappings)).mappings
      "m1").isSome = true ∧
    (MarketCreator.create (.good { markets := [("m1", c3Market)] })
      (.good c6Mappings) "m1" 100000 (1000 * 10 ^ 6) (.confirmed "0xA")
      (.confirmedEvent "0xH" "0xMKT")).createSubmitted = false ∧
    (MarketCreator.create (.good { markets := [("m1", c3Market)] })
      (.good c6Mappings) "m1" 100000 (1000 * 10 ^ 6) (.confirmed "0xA")
      (.confirmedEvent "0xH" "0xMKT")).mappingsFile = .good c6Mappings :=
  ⟨rfl,
   (c6_no_double_creation (.good { markets := [("m1", c3Market)] })
     (.good c6Mappings) "m1" 100000 (1000 * 10 ^ 6) (.confirmed "0xA")
     (.confirmedEvent "0xH" "0xMKT") rfl).2.1,
   (c6_no_double_creation (.good { markets := [("m1", c3Market)] })
     (.good c6Mappings) "m1" 100000 (1000 * 10 ^ 6) (.confirmed "0xA")
     (.confirmedEvent "0xH" "0xMKT") rfl).2.2⟩

/-- C10: a missing or unparseable markets or mappings file loads as the empty
document, so the run proceeds as if no markets or mappings existed; and when
the loaded mappings document is empty, a run of create either leaves the
mappings file untouched or overwrites it with a document holding only the
entry of the current run. -/
theorem c10_loader_defaults_and_overwrite (mFile : FileState MarketsDb)
    (pFile : FileState MarketCreator.MappingsDb) (id1 : String) (now bal : Nat)
    (atx : TxOutcome) (ctx : MarketCreator.CreateTx) :
    (Settler.loadMarkets .missing = { markets := [] }) ∧
    (Settler.loadMarkets .corrupt = { markets := [] }) ∧
    (MarketCreator.loadMappings .missing =
      { mappings := [], onchain_only := [] }) ∧
    (MarketCreator.loadMappings .corrupt =
      { mappings := [], onchain_only := [] }) ∧
    (MarketCreator.loadMappings pFile = { mappings := [], onchain_only := [] } →
      (MarketCreator.create mFile pFile id1 now bal atx ctx).mappingsFile
        = pFile ∨
      ∃ e, (MarketCreator.create mFile pFile id1 now bal atx ctx).mappingsFile
        = .good { mappings := [(id1, e)], onchain_only := [] }) := by
  refine ⟨rfl, rfl, rfl, rfl, ?_⟩
  intro hload
  unfold MarketCreator.create
  rw [hload]
  cases hmk : dictGet (MarketCreator.loadMarkets mFile).markets id1 with
  | none => exact Or.inl rfl
  | some m =>
    by_cases hd : m.deadline ≤ now
    · simp [hd, dictGet]
    · by_cases hb : bal < MarketCreator.depositUsdc
      · simp [hd, hb, dictGet]
      · cases atx with
        | failed => simp [hd, hb, dictGet]
        | confirmed h =>
          cases ctx with
          | failed => simp [hd, hb, dictGet]
          | confirmedNoEvent h2 => simp [hd, hb, dictGet]
          | confirmedEvent h2 maddr =>
            refine Or.inr ⟨MarketCreator.newMapping id1 m maddr, ?_⟩
            simp [hd, hb, dictGet, dictSet, MarketCreator.saveMappings]

/-- Witness for C10: a corrupt mappings file loads empty, and the concrete
successful run overwrites it with only the entry of the current run. -/
theorem c10_witness :
    (MarketCreator.loadMappings .corrupt =
      { mappings := [], onchain_only := [] }) ∧
    ((MarketCreator.create (.good { markets := [("m1", c3Market)] }) .corrupt
        "m1" 100000 (1000 * 10 ^ 6) (.confirmed "0xA")
        (.confirmedEvent "0xH" "0xMKT")).mappingsFile = .corrupt ∨
      ∃ e, (MarketCreator.create (.good { markets := [("m1", c3Market)] })
        .corrupt "m1" 100000 (1000 * 10 ^ 6) (.confirmed "0xA")
        (.confirmedEvent "0xH" "0xMKT")).mappingsFile =
          .good { mappings := [("m1", e)], onchain_only := [] }) :=
  ⟨rfl,
   (c10_loader_defaults_and_overwrite (.good { markets := [("m1", c3Market)] })
     .corrupt "m1" 100000 (1000 * 10 ^ 6) (.confirmed "0xA")
     (.confirmedEvent "0xH" "0xMKT")).2.2.2.2 rfl⟩

/-- A question text carrying both required tags (question and rule with a
manual source) in which a duplicated question tag is followed by an optional
sub-tag line. -/
def c8BadInput : String :=
  "§question Will BTC hit 75000 by Feb 20?\n§question duplicate\n§§source creator:Hype origin:moltbook:95759b5b\n§rule\nsource:manual"

/-- The same text without the duplicate tag and the sub-tag line. -/
def c8GoodInput : String :=
  "§question Will BTC hit 75000 by Feb 20?\n§rule\nsource:manual"

/-- C8 (failing-input evaluation): on the bad input the parser raises a
Python TypeError (item assignment into the previously saved scalar value of
the duplicated tag) even though both required tags are present, so parsing
does not fail only by producing a ParseError naming a missing required field;
the same text without the two malformed optional lines parses successfully
and passes the required-fields validation, and the validation does name the
missing field on an input lacking the question tag. -/
theorem c8_parser_typeerror_crash :
    AAP.parse_question c8BadInput = .error .typeError ∧
    AAP.parse_question c8GoodInput =
      .ok [("question", .scalar "Will BTC hit 75000 by Feb 20?"),
           ("rule", .obj [("source", .s "manual")])] ∧
    AAP.validateParsed
      [("question", AAP.TagVal.scalar "Will BTC hit 75000 by Feb 20?"),
       ("rule", AAP.TagVal.obj [("source", AAP.Entry.s "manual")])] = .ok () ∧
    AAP.validateParsed [] = .error "question" := by
  exact ⟨rfl, rfl, rfl, rfl⟩

/-- C9: the Brier score is one minus the square of the difference between the
confidence over 100 and the indicator of the position matching the winning
outcome; in particular YES at 75 scores 0.9375 when YES wins and 0.4375 when
NO wins, and YES at 50 scores 0.75 either way. -/
theorem c9_brier_score :
    (∀ (conf : Nat) (p w : Position),
      brierScore conf p w =
        1 - ((conf : ℚ) / 100 - if p = w then 1 else 0) ^ 2) ∧
    brierScore 75 .yes .yes = 0.9375 ∧
    brierScore 75 .yes .no = 0.4375 ∧
    brierScore 50 .yes .yes = 0.75 ∧
    brierScore 50 .yes .no = 0.75 := by
  have hne : Position.yes ≠ Position.no := by intro h; cases h
  refine ⟨fun conf p w => rfl, ?_, ?_, ?_, ?_⟩ <;>
    simp only [brierScore, if_neg hne] <;> norm_num
